import Mathlib

/-!
Shallow embedding of the ett-summary repository (a Rust audio-capture client
and a transcription/summarization server) for checking its natural-language
specification.

Server side (src/server-rs/src/main.rs): the multipart upload handler
`upload_audio`, the WAV transcription front end `transcribe_wav`, the
completion-API wrapper `summarize_text`, the webhook `post_webhook`, and one
pass of the background sweeper `flush_task`.  The Postgres `state` table is
modelled as an association list keyed by `system_key`; the whisper inference
engine and the network are oracles supplied as parameters (a list of decoded
segment texts, a summarizer function, an API response value).

Client side (src/client/src/main.rs): the chunk accumulator / uploader loop
`batch_and_send` and the single-attempt transmitter `send_wav`, with the
per-chunk network outcome supplied as an oracle.
-/

deriving instance DecidableEq for Except

namespace EttSummary

/-- Whitespace trimming on char lists, modelling Rust `str::trim` (which the
source applies per decoded segment and to the completion text); identical to
it on ASCII text.  Defined structurally so the kernel can evaluate it. -/
def trimChars (l : List Char) : List Char :=
  ((l.dropWhile Char.isWhitespace).reverse.dropWhile Char.isWhitespace).reverse

/-- `str::trim` on strings. -/
def strTrim (s : String) : String :=
  String.mk (trimChars s.data)

/-- Fuel-indexed scanner for `str::replace`: replaces each non-overlapping
occurrence of `pat` (left to right) by `rep`.  Each step consumes at least
one character when `pat` is non-empty, so `l.length` fuel suffices.  Defined
structurally on the fuel so the kernel can evaluate it. -/
def replaceFuel (pat rep : List Char) : Nat → List Char → List Char
  | 0, l => l
  | _ + 1, [] => []
  | fuel + 1, c :: rest =>
    if pat ≠ [] ∧ pat.isPrefixOf (c :: rest) then
      rep ++ replaceFuel pat rep fuel ((c :: rest).drop pat.length)
    else
      c :: replaceFuel pat rep fuel rest

/-- Rust `str::replace` (for the non-empty patterns the source uses,
`"{summary}"` and `"{transcription}"`): every non-overlapping occurrence of
the pattern is replaced, scanning left to right. -/
def strReplace (s pat rep : String) : String :=
  String.mk (replaceFuel pat.data rep.data s.data.length s.data)

/-- HTTP status outcomes returned by the upload handler
(axum StatusCode values used in the source). -/
inductive Status where
  | ok
  | badRequest
  | internalServerError
  deriving DecidableEq, Repr

/-- Format descriptor of a parsed WAV payload (hound WavSpec fields the
server inspects). -/
structure WavSpec where
  channels : Nat
  sampleRate : Nat
  deriving DecidableEq, Repr

/-- A parsed WAV payload: its spec and its i16 samples. -/
structure WavFile where
  spec : WavSpec
  samples : List Int
  deriving DecidableEq, Repr

/-- Per-system configuration entry (config.toml `[[systems]]`). -/
structure SystemConfig where
  key : String
  initial_prompt : String
  update_prompt : String
  deriving DecidableEq, Repr

/-- Server configuration (config.toml). -/
structure Config where
  openai_api_url : String
  openai_model : String
  webhook_url : String
  webhook_template : String
  whisper_model_path : String
  database_url : String
  systems : List SystemConfig
  deriving DecidableEq, Repr

/-- One row of the `state` table: `summary TEXT`, `last_received TIMESTAMPTZ`
(timestamps as integer seconds). -/
structure Row where
  summary : String
  lastReceived : Int
  deriving DecidableEq, Repr

/-- The `state` table: rows keyed by `system_key` (the primary key; bootstrap
inserts with ON CONFLICT DO NOTHING keep keys unique). -/
abbrev Db := List (String × Row)

/-- `UPDATE state SET last_received = NOW() WHERE system_key=$1`. -/
def dbTouch (db : Db) (k : String) (now : Int) : Db :=
  db.map (fun p => if p.1 == k then (p.1, Row.mk p.2.summary now) else p)

/-- `SELECT summary FROM state WHERE system_key=$1` via `query_one`:
`none` models the query error raised when no row matches. -/
def dbLookup (db : Db) (k : String) : Option String :=
  (db.find? (fun p => p.1 == k)).map (fun p => p.2.summary)

/-- `UPDATE state SET summary=$1 WHERE system_key=$2`. -/
def dbSetSummary (db : Db) (k : String) (v : String) : Db :=
  db.map (fun p => if p.1 == k then (p.1, Row.mk v p.2.lastReceived) else p)

/-- The (key, summary) projection of the table, used to state that a request
left every running summary unchanged. -/
def summariesOf (db : Db) : List (String × String) :=
  db.map (fun p => (p.1, p.2.summary))

/-- `transcribe_wav`: parse the WAV (the `parsed` argument carries the hound
parse result), reject anything but mono 16 kHz, then run whisper.  The
inference engine is an oracle: `segments` is the list of texts
`full_get_segment_text` would yield; the source appends `seg.trim()` and a
space for each segment and returns the accumulated string untrimmed.  In this
model an `error` result occurs only before inference (parse or format). -/
def transcribe_wav (parsed : Except String WavFile) (segments : List String) :
    Except String String :=
  match parsed with
  | Except.error e => Except.error e
  | Except.ok w =>
    if w.spec.channels ≠ 1 ∨ w.spec.sampleRate ≠ 16000 then
      Except.error "wav must be mono 16kHz"
    else
      Except.ok (segments.foldl (fun text seg => text ++ strTrim seg ++ " ") "")

/-- Prompt construction of `upload_audio` (lines 244-253): initial template
when the stored summary is empty, update template otherwise; Rust
`str::replace` replaces every occurrence, as does `String.replace`. -/
def buildPrompt (sc : SystemConfig) (current_summary transcription : String) :
    String :=
  if current_summary = "" then
    strReplace sc.initial_prompt "{transcription}" transcription
  else
    strReplace (strReplace sc.update_prompt "{summary}" current_summary)
      "{transcription}" transcription

/-- `post_webhook`: returns the POSTed body, or `none` when the URL is empty
(the source returns early without sending). -/
def post_webhook (url template summary : String) : Option String :=
  if url = "" then none
  else some (strReplace template "{summary}" summary)

/-- Observable outcome of one `upload_audio` request: HTTP status, the table
afterwards, the webhook body POSTed (if any), the prompt handed to
`summarize_text` (if reached), and whether whisper inference ran. -/
structure UploadResult where
  status : Status
  db : Db
  webhookSent : Option String
  promptUsed : Option String
  inferenceRan : Bool
  deriving DecidableEq, Repr

/-- `upload_audio`: the multipart handler.  `filePart`/`keyPart` are the
extracted `file` and `system_key` fields; `segments` is the whisper oracle;
`summarizer` is the outcome of `summarize_text` per prompt.  Mirrors the
source order: missing part checks, `last_received` touch, transcription,
summary lookup (`query_one`, failing when the key has no row), system-config
lookup, prompt build, summarize, summary write plus webhook.  Database
statements themselves are modelled as infallible. -/
def upload_audio (cfg : Config) (db : Db) (now : Int)
    (filePart : Option (Except String WavFile)) (keyPart : Option String)
    (segments : List String) (summarizer : String → Except String String) :
    UploadResult :=
  match filePart with
  | none => UploadResult.mk Status.badRequest db none none false
  | some parsed =>
    match keyPart with
    | none => UploadResult.mk Status.badRequest db none none false
    | some system_key =>
      let db1 := dbTouch db system_key now
      match transcribe_wav parsed segments with
      | Except.error _ => UploadResult.mk Status.badRequest db1 none none false
      | Except.ok transcription =>
        match dbLookup db1 system_key with
        | none => UploadResult.mk Status.internalServerError db1 none none true
        | some current_summary =>
          match cfg.systems.find? (fun s => s.key == system_key) with
          | none => UploadResult.mk Status.badRequest db1 none none true
          | some sys_cfg =>
            let prompt := buildPrompt sys_cfg current_summary transcription
            match summarizer prompt with
            | Except.ok sum =>
              UploadResult.mk Status.ok (dbSetSummary db1 system_key sum)
                (post_webhook cfg.webhook_url cfg.webhook_template sum)
                (some prompt) true
            | Except.error _ =>
              UploadResult.mk Status.internalServerError db1 none (some prompt)
                true

/-- One row of the sweeper's scan: clear the summary when it is non-empty and
`now - last_received >= 3600` seconds (the source compares chrono durations
with `>=`). -/
def sweepRow (now : Int) (p : String × Row) : String × Row :=
  if p.2.summary ≠ "" ∧ 3600 ≤ now - p.2.lastReceived then
    (p.1, Row.mk "" p.2.lastReceived)
  else p

/-- One tick of `flush_task`'s 60-second loop: scan every row and clear the
stale ones.  The second component is the list of webhook bodies POSTed during
the pass — the source's loop body contains no webhook call, so it is empty. -/
def flush_task (now : Int) (db : Db) : Db × List String :=
  (db.map (sweepRow now), [])

/-! JSON values and the completion-API wrapper `summarize_text`.  The model
mirrors serde_json `Value` indexing: indexing a non-object / non-array, or a
missing field, yields `Null`; `as_str` succeeds only on a JSON string. -/

/-- A JSON value (serde_json `Value`). -/
inductive JsonVal where
  | nullV
  | boolV (b : Bool)
  | numV (n : Int)
  | strV (s : String)
  | arrV (xs : List JsonVal)
  | objV (fields : List (String × JsonVal))

/-- serde_json `value[field]`: `Null` on anything but an object holding the
field. -/
def jGet (j : JsonVal) (field : String) : JsonVal :=
  match j with
  | JsonVal.objV fields =>
    match fields.find? (fun p => p.1 == field) with
    | some p => p.2
    | none => JsonVal.nullV
  | _ => JsonVal.nullV

/-- serde_json `value[i]`: `Null` on anything but an array long enough. -/
def jIdx (j : JsonVal) (i : Nat) : JsonVal :=
  match j with
  | JsonVal.arrV xs => xs.getD i JsonVal.nullV
  | _ => JsonVal.nullV

/-- serde_json `Value::as_str`. -/
def jAsStr (j : JsonVal) : Option String :=
  match j with
  | JsonVal.strV s => some s
  | _ => none

/-- reqwest `StatusCode::is_success`: 2xx. -/
def statusIsSuccess (s : Nat) : Bool :=
  decide (200 ≤ s) && decide (s < 300)

/-- An HTTP response from the completion API: status code and parsed JSON
body. -/
structure HttpResponse where
  statusCode : Nat
  body : JsonVal

/-- `summarize_text`: the network outcome is the argument (`error` is a
transport error, which the source propagates).  Non-2xx responses become
errors; otherwise `choices[0].message.content` is extracted with `as_str`,
defaulted to `""` when absent or not a string, and trimmed. -/
def summarize_text (resp : Except String HttpResponse) : Except String String :=
  match resp with
  | Except.error e => Except.error e
  | Except.ok r =>
    if statusIsSuccess r.statusCode = false then
      Except.error ("OpenAI error: " ++ toString r.statusCode)
    else
      Except.ok (strTrim
        ((jAsStr (jGet (jGet (jIdx (jGet r.body "choices") 0) "message")
          "content")).getD ""))

/-! Client side: `send_wav` and the accumulate/upload loop of
`batch_and_send`. -/

/-- Outcome of the single POST a chunk gets: 2xx, non-2xx (logged, the
function still returns Ok), or a reqwest transport error (propagated by
`?`). -/
inductive SendOutcome where
  | success
  | httpFailure
  | transportError
  deriving DecidableEq, Repr

/-- Result of one `send_wav` call: whether `remove_file` ran, and whether the
call returned an error to the caller.  On a transport error the `?` on
`send()` returns before the removal; on success and on a non-2xx response the
failure is only logged and the file is removed. -/
structure SendResult where
  fileRemoved : Bool
  errored : Bool
  deriving DecidableEq, Repr

/-- `send_wav` as a function of the network outcome. -/
def send_wav (o : SendOutcome) : SendResult :=
  match o with
  | SendOutcome.transportError => SendResult.mk false true
  | SendOutcome.success => SendResult.mk true false
  | SendOutcome.httpFailure => SendResult.mk true false

/-- One emitted chunk as observed at the uploader: the samples written to the
WAV file, the number of transmission attempts made for it, whether its local
file was removed, and the network outcome of the attempt. -/
structure UploadEvent (α : Type) where
  chunk : List α
  attempts : Nat
  fileRemoved : Bool
  outcome : SendOutcome
  deriving DecidableEq, Repr

/-- The receive loop of `batch_and_send`: push each sample, and when the
buffer reaches the threshold `C` write + send it once and clear the buffer.
`oc` gives the network outcome of chunk number `idx`.  Returns the emitted
chunk events in order and whether the loop was aborted by a propagated
transport error (which in the source returns from `batch_and_send`,
abandoning the rest of the stream). -/
def batchGo {α : Type} (C : Nat) (oc : Nat → SendOutcome) :
    List α → List α → Nat → List (UploadEvent α) × Bool
  | [], _, _ => ([], false)
  | s :: rest, buf, idx =>
    let buf2 := buf ++ [s]
    if C ≤ buf2.length then
      let o := oc idx
      let r := send_wav o
      let ev := UploadEvent.mk buf2 1 r.fileRemoved o
      if r.errored then
        ([ev], true)
      else
        let rec2 := batchGo C oc rest [] (idx + 1)
        (ev :: rec2.1, rec2.2)
    else
      batchGo C oc rest buf2 idx

/-- `batch_and_send` over a finite prefix of the sample stream. -/
def batch_and_send {α : Type} (C : Nat) (oc : Nat → SendOutcome)
    (samples : List α) : List (UploadEvent α) × Bool :=
  batchGo C oc samples [] 0

/-! Interleaving model for the per-SourceKey merge race (claim C8).  After
transcription the handler drops the engine lock (`drop(s)`), then performs
SELECT summary → build prompt → `summarize_text` → UPDATE summary with no
lock held.  Two concurrent uploads for the same SourceKey are modelled as two
tasks, each an atomic read step (the SELECT) followed by an atomic write step
(the UPDATE writing the summarizer's output for the prompt built from the
value that task read).  A schedule is the order in which the tasks take
steps. -/

/-- Deterministic environment of the race: the system's templates, a
deterministic summarizer stub, and the two transcripts. -/
structure MergeEnv where
  sys_cfg : SystemConfig
  summarizer : String → String
  transcript0 : String
  transcript1 : String

/-- One in-flight merge task: the summary value it has read (none before its
SELECT) and whether it has written. -/
structure MergeTask where
  readVal : Option String
  written : Bool
  deriving DecidableEq, Repr

/-- Shared summary cell plus the two tasks. -/
structure MergeSt where
  summary : String
  task0 : MergeTask
  task1 : MergeTask
  deriving DecidableEq, Repr

/-- Advance one task by one atomic step: SELECT if it has not read, otherwise
UPDATE with the summarizer output for its prompt; a finished task leaves the
state unchanged.  Returns the task and the new shared summary. -/
def stepTask (env : MergeEnv) (t : String) (task : MergeTask)
    (summary : String) : MergeTask × String :=
  match task.readVal, task.written with
  | none, false => (MergeTask.mk (some summary) false, summary)
  | some v, false =>
    (MergeTask.mk (some v) true, env.summarizer (buildPrompt env.sys_cfg v t))
  | _, _ => (task, summary)

/-- Scheduler step: `false` advances task 0, `true` advances task 1. -/
def mergeStep (env : MergeEnv) (i : Bool) (st : MergeSt) : MergeSt :=
  if i = false then
    let r := stepTask env env.transcript0 st.task0 st.summary
    MergeSt.mk r.2 r.1 st.task1
  else
    let r := stepTask env env.transcript1 st.task1 st.summary
    MergeSt.mk r.2 st.task0 r.1

/-- Run a schedule. -/
def mergeRun (env : MergeEnv) (sched : List Bool) (st : MergeSt) : MergeSt :=
  sched.foldl (fun s i => mergeStep env i s) st

/-- A merge is in flight when it has read but not yet written. -/
def inFlight (t : MergeTask) : Bool :=
  t.readVal.isSome && !t.written

/-!  Helper lemmas about the table operations.  -/

/-- Touching `last_received` preserves every (key, summary) pair. -/
theorem summariesOf_dbTouch (db : Db) (k : String) (now : Int) :
    summariesOf (dbTouch db k now) = summariesOf db := by
  induction db with
  | nil => rfl
  | cons p rest ih =>
    simp only [summariesOf, dbTouch, List.map_cons, List.map_map] at *
    by_cases h : p.1 == k <;> simp [h] at ih ⊢ <;> exact ih

/-- Touching `last_received` does not change the stored summary that a later
SELECT sees. -/
theorem dbLookup_dbTouch (db : Db) (k k' : String) (now : Int) :
    dbLookup (dbTouch db k now) k' = dbLookup db k' := by
  induction db with
  | nil => rfl
  | cons p rest ih =>
    simp only [dbLookup, dbTouch, List.map_cons, List.find?] at *
    by_cases h : p.1 == k
    · by_cases h' : p.1 == k' <;> simp [h, h'] at ih ⊢ <;> exact ih
    · by_cases h' : p.1 == k' <;> simp [h, h'] at ih ⊢ <;> exact ih

/-- If no row carries key `k`, the touch is a no-op. -/
theorem dbTouch_absent (db : Db) (k : String) (now : Int)
    (h : ∀ p ∈ db, p.1 ≠ k) : dbTouch db k now = db := by
  induction db with
  | nil => rfl
  | cons p rest ih =>
    have hp : p.1 ≠ k := h p (List.mem_cons_self p rest)
    have hp' : (p.1 == k) = false := beq_eq_false_iff_ne.mpr hp
    simp only [dbTouch, List.map_cons, hp', Bool.false_eq_true, if_false]
    have := ih (fun q hq => h q (List.mem_cons_of_mem p hq))
    simp only [dbTouch] at this
    rw [this]

/-- If no row carries key `k`, the SELECT finds nothing. -/
theorem dbLookup_absent (db : Db) (k : String)
    (h : ∀ p ∈ db, p.1 ≠ k) : dbLookup db k = none := by
  have hf : db.find? (fun p => p.1 == k) = none := by
    rw [List.find?_eq_none]
    intro p hp
    simpa using h p hp
  simp [dbLookup, hf]

/-- Writing the summary for a key present in the table makes a later SELECT
for that key return the written value. -/
theorem dbLookup_dbSetSummary (db : Db) (k v : String)
    (h : dbLookup db k ≠ none) :
    dbLookup (dbSetSummary db k v) k = some v := by
  induction db with
  | nil => simp [dbLookup] at h
  | cons p rest ih =>
    by_cases hk : (p.1 == k) = true
    · simp [dbLookup, dbSetSummary, List.find?, hk]
    · have hk' : (p.1 == k) = false := by simpa using hk
      have h' : dbLookup rest k ≠ none := by
        simpa [dbLookup, List.find?, hk'] using h
      have goal' := ih h'
      simpa [dbLookup, dbSetSummary, List.find?, hk'] using goal'

/-- An invalid format (not mono 16 kHz) is rejected by `transcribe_wav`
before any inference, whatever whisper would have produced. -/
theorem transcribe_wav_invalid (w : WavFile) (segments : List String)
    (h : w.spec.channels ≠ 1 ∨ w.spec.sampleRate ≠ 16000) :
    transcribe_wav (Except.ok w) segments =
      Except.error "wav must be mono 16kHz" := by
  simp only [transcribe_wav, if_pos h]

/-! Concrete fixtures used by witnesses and counterexamples. -/

/-- A valid mono 16 kHz payload. -/
def wavOk : WavFile := WavFile.mk (WavSpec.mk 1 16000) [0]

/-- A stereo 44.1 kHz payload (the spec's rejection scenario). -/
def wavStereo : WavFile := WavFile.mk (WavSpec.mk 2 44100) [0, 0]

/-- One configured system. -/
def sysA : SystemConfig :=
  SystemConfig.mk "s1" "Init: {transcription}" "Upd: {summary} | {transcription}"

/-- A server configuration with one system and a non-empty webhook URL. -/
def cfgA : Config :=
  Config.mk "http://api" "gpt" "http://hook" "body: {summary}" "model.bin"
    "db" [sysA]

/-- The table with an empty running summary for "s1". -/
def dbA : Db := [("s1", Row.mk "" 0)]

/-- The table while "s1" holds the running summary "Summary A". -/
def dbB : Db := [("s1", Row.mk "Summary A" 50)]

/-- A 2xx completion body whose `choices[0].message.content` exists but is
not a JSON string. -/
def emptyChoicesBody : JsonVal :=
  JsonVal.objV [("choices", JsonVal.arrV [JsonVal.objV
    [("message", JsonVal.objV [("content", JsonVal.numV 5)])]])]

/-! Claim C1. -/

/-- C1 (amended): an upload whose WAV payload is not mono 16 kHz is answered
with 400 Bad Request, no inference runs, no webhook is sent and every
running summary is unchanged — but, contrary to the claim as stated, the
request has already executed `UPDATE state SET last_received = NOW()` for the
named SourceKey before validation, so that key's `last_activity` is changed
to `now`. -/
theorem C1_invalid_format_amended (cfg : Config) (db : Db) (now : Int)
    (w : WavFile) (k : String) (segments : List String)
    (summarizer : String → Except String String)
    (h : w.spec.channels ≠ 1 ∨ w.spec.sampleRate ≠ 16000) :
    upload_audio cfg db now (some (Except.ok w)) (some k) segments summarizer =
      UploadResult.mk Status.badRequest (dbTouch db k now) none none false
    ∧ summariesOf (dbTouch db k now) = summariesOf db := by
  refine ⟨?_, summariesOf_dbTouch db k now⟩
  simp only [upload_audio, transcribe_wav_invalid w segments h]

/-- C1 counterexample: uploading a stereo 44.1 kHz payload for the known key
"s1" does return 400, but the SourceState is NOT left unchanged: the row's
`last_received` moves from 0 to 100. -/
theorem C1_counterexample :
    (upload_audio cfgA dbA 100 (some (Except.ok wavStereo)) (some "s1") ["x"]
      (fun _ => Except.ok "S")).status = Status.badRequest
    ∧ (upload_audio cfgA dbA 100 (some (Except.ok wavStereo)) (some "s1")
      ["x"] (fun _ => Except.ok "S")).db ≠ dbA := by decide

/-- C1 witness: the amended theorem at the stereo fixture. -/
theorem C1_witness :
    upload_audio cfgA dbA 100 (some (Except.ok wavStereo)) (some "s1") ["x"]
      (fun _ => Except.ok "S") =
      UploadResult.mk Status.badRequest (dbTouch dbA "s1" 100) none none false
    ∧ summariesOf (dbTouch dbA "s1" 100) = summariesOf dbA :=
  C1_invalid_format_amended cfgA dbA 100 wavStereo "s1" ["x"]
    (fun _ => Except.ok "S") (by decide)

/-! Claim C2. -/

/-- C2: when the request reaches the Summarizer and the call fails (transport
error or non-2xx), the endpoint answers 500, the table is exactly what it was
just before the call (prior running summary retained, `last_activity` not
touched again), and no webhook is POSTed. -/
theorem C2_summarizer_failure (cfg : Config) (db : Db) (now : Int)
    (parsed : Except String WavFile) (k : String) (segments : List String)
    (summarizer : String → Except String String)
    (t cs : String) (sc : SystemConfig) (e : String)
    (h1 : transcribe_wav parsed segments = Except.ok t)
    (h2 : dbLookup (dbTouch db k now) k = some cs)
    (h3 : cfg.systems.find? (fun s => s.key == k) = some sc)
    (h4 : summarizer (buildPrompt sc cs t) = Except.error e) :
    upload_audio cfg db now (some parsed) (some k) segments summarizer =
      UploadResult.mk Status.internalServerError (dbTouch db k now) none
        (some (buildPrompt sc cs t)) true
    ∧ summariesOf (dbTouch db k now) = summariesOf db := by
  refine ⟨?_, summariesOf_dbTouch db k now⟩
  simp only [upload_audio, h1, h2, h3, h4]

/-- C2 witness: a failing summarizer while "s1" holds "Summary A". -/
theorem C2_witness :
    upload_audio cfgA dbB 100 (some (Except.ok wavOk)) (some "s1")
      ["more info"] (fun _ => Except.error "transport") =
      UploadResult.mk Status.internalServerError (dbTouch dbB "s1" 100) none
        (some (buildPrompt sysA "Summary A" "more info ")) true
    ∧ summariesOf (dbTouch dbB "s1" 100) = summariesOf dbB :=
  C2_summarizer_failure cfgA dbB 100 (Except.ok wavOk) "s1" ["more info"]
    (fun _ => Except.error "transport") "more info " "Summary A" sysA
    "transport" (by decide) (by decide) (by decide) rfl

/-! Claim C3. -/

/-- C3: the prompt handed to the Summarizer is the initial template with
`{transcription}` replaced by the transcript when the stored summary is
empty, and otherwise the update template with `{summary}` replaced by the
current summary and `{transcription}` by the transcript.  The right-hand
side mentions only the templates, the stored summary and the transcript, so
prompt construction is a pure, deterministic function of those three. -/
theorem C3_prompt_construction (cfg : Config) (db : Db) (now : Int)
    (parsed : Except String WavFile) (k : String) (segments : List String)
    (summarizer : String → Except String String)
    (t cs : String) (sc : SystemConfig)
    (h1 : transcribe_wav parsed segments = Except.ok t)
    (h2 : dbLookup (dbTouch db k now) k = some cs)
    (h3 : cfg.systems.find? (fun s => s.key == k) = some sc) :
    (upload_audio cfg db now (some parsed) (some k) segments
      summarizer).promptUsed =
      some (if cs = "" then strReplace sc.initial_prompt "{transcription}" t
        else strReplace (strReplace sc.update_prompt "{summary}" cs)
          "{transcription}" t) := by
  simp only [upload_audio, h1, h2, h3]
  cases hs : summarizer (buildPrompt sc cs t) <;> simp [buildPrompt]

/-- C3 witness: while "s1" holds "Summary A", the prompt is the update
template filled with "Summary A" and the new transcript. -/
theorem C3_witness :
    (upload_audio cfgA dbB 100 (some (Except.ok wavOk)) (some "s1")
      ["more info"] (fun _ => Except.ok "Summary B")).promptUsed =
      some (if "Summary A" = "" then
        strReplace sysA.initial_prompt "{transcription}" "more info "
      else strReplace (strReplace sysA.update_prompt "{summary}" "Summary A")
        "{transcription}" "more info ") :=
  C3_prompt_construction cfgA dbB 100 (Except.ok wavOk) "s1" ["more info"]
    (fun _ => Except.ok "Summary B") "more info " "Summary A" sysA
    (by decide) (by decide) (by decide)

/-! Claim C9. -/

/-- C9 (amended): a request missing the audio part or the SourceKey part is
answered 400 with no side effect and no transcription; but a request naming
a SourceKey with no row in the state table runs transcription and is then
answered 500 Internal Server Error (the `query_one` for the summary fails),
not a client error — the table is still unchanged, since the earlier UPDATE
matched no row. -/
theorem C9_amended (cfg : Config) (db : Db) (now : Int)
    (segments : List String) (summarizer : String → Except String String)
    (parsed : Except String WavFile) (w : WavFile) (k : String) :
    upload_audio cfg db now none none segments summarizer =
      UploadResult.mk Status.badRequest db none none false
    ∧ upload_audio cfg db now none (some k) segments summarizer =
      UploadResult.mk Status.badRequest db none none false
    ∧ upload_audio cfg db now (some parsed) none segments summarizer =
      UploadResult.mk Status.badRequest db none none false
    ∧ (w.spec.channels = 1 → w.spec.sampleRate = 16000 →
        (∀ p ∈ db, p.1 ≠ k) →
        upload_audio cfg db now (some (Except.ok w)) (some k) segments
          summarizer =
          UploadResult.mk Status.internalServerError db none none true) := by
  refine ⟨rfl, rfl, rfl, fun hc hr habs => ?_⟩
  have ht : transcribe_wav (Except.ok w) segments =
      Except.ok (segments.foldl (fun text seg => text ++ strTrim seg ++ " ")
        "") := by
    simp [transcribe_wav, hc, hr]
  have hl : dbLookup (dbTouch db k now) k = none := by
    rw [dbTouch_absent db k now habs]
    exact dbLookup_absent db k habs
  simp only [upload_audio, ht, hl, dbTouch_absent db k now habs,
    dbLookup_absent db k habs]

/-- C9 counterexample: a valid mono 16 kHz upload naming the unknown
SourceKey "zz" is not rejected as a client error — the status is 500 and
whisper inference did run. -/
theorem C9_counterexample :
    (upload_audio cfgA dbA 100 (some (Except.ok wavOk)) (some "zz") ["x"]
      (fun _ => Except.ok "S")).status ≠ Status.badRequest
    ∧ (upload_audio cfgA dbA 100 (some (Except.ok wavOk)) (some "zz") ["x"]
      (fun _ => Except.ok "S")).inferenceRan = true := by decide

/-- C9 witness: the amended theorem at a missing-parts input and at the
unknown-key input. -/
theorem C9_witness :
    upload_audio cfgA dbA 100 none none ["x"] (fun _ => Except.ok "S") =
      UploadResult.mk Status.badRequest dbA none none false
    ∧ upload_audio cfgA dbA 100 (some (Except.ok wavOk)) (some "zz") ["x"]
      (fun _ => Except.ok "S") =
      UploadResult.mk Status.internalServerError dbA none none true :=
  ⟨(C9_amended cfgA dbA 100 ["x"] (fun _ => Except.ok "S") (Except.ok wavOk)
      wavOk "zz").1,
    (C9_amended cfgA dbA 100 ["x"] (fun _ => Except.ok "S") (Except.ok wavOk)
      wavOk "zz").2.2.2 rfl rfl (by decide)⟩

/-! Claim C10. -/

/-- C10: a 2xx completion response whose body lacks
`choices[0].message.content` as a string makes `summarize_text` return
success carrying `""`; the merge then overwrites the (non-empty) running
summary with `""` and, the webhook URL being configured, POSTs the webhook
template with an empty summary substituted. -/
theorem C10_empty_content (cfg : Config) (db : Db) (now : Int)
    (parsed : Except String WavFile) (k : String) (segments : List String)
    (st : Nat) (body : JsonVal) (t cs : String) (sc : SystemConfig)
    (h1 : transcribe_wav parsed segments = Except.ok t)
    (h2 : dbLookup (dbTouch db k now) k = some cs)
    (h3 : cfg.systems.find? (fun s => s.key == k) = some sc)
    (_h4 : cs ≠ "")
    (h5 : statusIsSuccess st = true)
    (h6 : jAsStr (jGet (jGet (jIdx (jGet body "choices") 0) "message")
      "content") = none)
    (h7 : cfg.webhook_url ≠ "") :
    summarize_text (Except.ok (HttpResponse.mk st body)) = Except.ok ""
    ∧ (upload_audio cfg db now (some parsed) (some k) segments
        (fun _ => summarize_text (Except.ok (HttpResponse.mk st body)))).status
        = Status.ok
    ∧ dbLookup (upload_audio cfg db now (some parsed) (some k) segments
        (fun _ => summarize_text (Except.ok (HttpResponse.mk st body)))).db k
        = some ""
    ∧ (upload_audio cfg db now (some parsed) (some k) segments
        (fun _ => summarize_text (Except.ok
          (HttpResponse.mk st body)))).webhookSent
        = some (strReplace cfg.webhook_template "{summary}" "") := by
  have hsum : summarize_text (Except.ok (HttpResponse.mk st body)) =
      Except.ok "" := by
    simp only [summarize_text, h5, h6]
    rfl
  have hrr : upload_audio cfg db now (some parsed) (some k) segments
      (fun _ => summarize_text (Except.ok (HttpResponse.mk st body))) =
      UploadResult.mk Status.ok (dbSetSummary (dbTouch db k now) k "")
        (post_webhook cfg.webhook_url cfg.webhook_template "")
        (some (buildPrompt sc cs t)) true := by
    simp only [upload_audio, h1, h2, h3, hsum]
  refine ⟨hsum, ?_, ?_, ?_⟩
  · rw [hrr]
  · rw [hrr]
    exact dbLookup_dbSetSummary (dbTouch db k now) k "" (by rw [h2]; simp)
  · rw [hrr]
    simp [post_webhook, h7]

/-- C10 witness: a 200 response whose `content` field is a JSON number,
merged while "s1" holds "Summary A". -/
theorem C10_witness :
    summarize_text (Except.ok (HttpResponse.mk 200 emptyChoicesBody)) =
      Except.ok ""
    ∧ (upload_audio cfgA dbB 100 (some (Except.ok wavOk)) (some "s1")
        ["more info"] (fun _ => summarize_text (Except.ok
          (HttpResponse.mk 200 emptyChoicesBody)))).status = Status.ok
    ∧ dbLookup (upload_audio cfgA dbB 100 (some (Except.ok wavOk))
        (some "s1") ["more info"] (fun _ => summarize_text (Except.ok
          (HttpResponse.mk 200 emptyChoicesBody)))).db "s1" = some ""
    ∧ (upload_audio cfgA dbB 100 (some (Except.ok wavOk)) (some "s1")
        ["more info"] (fun _ => summarize_text (Except.ok
          (HttpResponse.mk 200 emptyChoicesBody)))).webhookSent =
      some (strReplace cfgA.webhook_template "{summary}" "") :=
  C10_empty_content cfgA dbB 100 (Except.ok wavOk) "s1" ["more info"] 200
    emptyChoicesBody "more info " "Summary A" sysA
    (by decide) (by decide) (by decide) (by decide) (by decide) rfl
    (by decide)

end EttSummary

namespace EttSummary

/-! Claim C4: the text assembled from whisper's segments. -/

/-- Pulling the fold's accumulator out front (the loop builds the text by
appending to a growing accumulator). -/
theorem transcribeFold_shift (l : List String) (acc : String) :
    l.foldl (fun t s => t ++ strTrim s ++ " ") acc =
      acc ++ l.foldl (fun t s => t ++ strTrim s ++ " ") "" := by
  induction l generalizing acc with
  | nil => simp [String.append_empty]
  | cons s rest ih =>
    simp only [List.foldl]
    rw [ih (acc ++ strTrim s ++ " "), ih ("" ++ strTrim s ++ " ")]
    simp [String.empty_append, String.append_assoc]

/-- `String.join` peels off its head. -/
theorem strJoin_cons (x : String) (l : List String) :
    String.join (x :: l) = x ++ String.join l := by
  have shift : ∀ (m : List String) (acc : String),
      m.foldl (fun t s => t ++ s) acc =
        acc ++ m.foldl (fun t s => t ++ s) "" := by
    intro m
    induction m with
    | nil => intro acc; simp [String.append_empty]
    | cons s rest ih =>
      intro acc
      simp only [List.foldl]
      rw [ih (acc ++ s), ih ("" ++ s), String.empty_append, String.append_assoc]
  show l.foldl (fun t s => t ++ s) ("" ++ x) = x ++ String.join l
  rw [String.empty_append]
  exact shift l x

/-- The segment fold equals the join of the trimmed segments each followed by
one space. -/
theorem foldl_trim_join (segs : List String) :
    segs.foldl (fun t s => t ++ strTrim s ++ " ") "" =
      String.join (segs.map (fun s => strTrim s ++ " ")) := by
  induction segs with
  | nil => rfl
  | cons s rest ih =>
    simp only [List.foldl, List.map]
    rw [transcribeFold_shift rest ("" ++ strTrim s ++ " "), ih, strJoin_cons]
    simp [String.empty_append]

/-- With at least one segment the assembled text ends in a space. -/
theorem join_trailing_space (l : List String) (h : l ≠ []) :
    ∃ p, String.join (l.map (fun s => strTrim s ++ " ")) = p ++ " " := by
  induction l with
  | nil => exact absurd rfl h
  | cons s rest ih =>
    cases rest with
    | nil =>
      refine ⟨strTrim s, ?_⟩
      simp only [List.map, strJoin_cons]
      show (strTrim s ++ " ") ++ String.join [] = strTrim s ++ " "
      simp [String.join, String.append_empty]
    | cons s2 rest2 =>
      obtain ⟨p, hp⟩ := ih (by simp)
      refine ⟨(strTrim s ++ " ") ++ p, ?_⟩
      simp only [List.map] at hp ⊢
      rw [strJoin_cons, hp]
      simp [String.append_assoc]

/-- C4 (amended): on a validated chunk the returned text is each decoded
segment trimmed and followed by exactly one space, concatenated in order —
so consecutive segments are separated by a single space, but the whole
result is NOT trimmed: whenever at least one segment was produced the text
carries a trailing space. -/
theorem C4_amended (w : WavFile) (segments : List String)
    (h1 : w.spec.channels = 1) (h2 : w.spec.sampleRate = 16000) :
    transcribe_wav (Except.ok w) segments =
      Except.ok (String.join (segments.map (fun s => strTrim s ++ " ")))
    ∧ (segments ≠ [] → ∃ p, transcribe_wav (Except.ok w) segments =
        Except.ok (p ++ " ")) := by
  have ht : transcribe_wav (Except.ok w) segments =
      Except.ok (segments.foldl (fun t s => t ++ strTrim s ++ " ") "") := by
    simp [transcribe_wav, h1, h2]
  refine ⟨by rw [ht, foldl_trim_join], fun hne => ?_⟩
  obtain ⟨p, hp⟩ := join_trailing_space segments hne
  exact ⟨p, by rw [ht, foldl_trim_join, hp]⟩

/-- Modelled from the spec wording of C4, for comparison only: the segment
texts concatenated with a single separating space and the WHOLE result
trimmed of leading and trailing whitespace. -/
def claimedTranscriptText (segments : List String) : String :=
  strTrim (String.intercalate " " segments)

/-- C4 counterexample: on the single segment `"hi"` the source returns
`"hi "` (trailing space), not the trimmed text `"hi"` the claim requires. -/
theorem C4_counterexample :
    transcribe_wav (Except.ok wavOk) ["hi"] ≠
      Except.ok (claimedTranscriptText ["hi"]) := by decide

/-- C4 witness: the amended theorem on two segments with surrounding
whitespace. -/
theorem C4_witness :
    transcribe_wav (Except.ok wavOk) ["a", " b "] =
      Except.ok (String.join ((["a", " b "]).map (fun s => strTrim s ++ " "))) :=
  (C4_amended wavOk ["a", " b "] rfl rfl).1

/-! Claim C5: the stale-state sweeper. -/

/-- A sweep never changes a row's key. -/
theorem sweepRow_key (now : Int) (p : String × Row) :
    (sweepRow now p).1 = p.1 := by
  unfold sweepRow
  split <;> rfl

/-- A sweep never changes a row's `last_received`. -/
theorem sweepRow_last (now : Int) (p : String × Row) :
    (sweepRow now p).2.lastReceived = p.2.lastReceived := by
  unfold sweepRow
  split <;> rfl

/-- A non-empty summary at or past the threshold is cleared. -/
theorem sweepRow_clears (now : Int) (p : String × Row)
    (hs : p.2.summary ≠ "") (hl : 3600 ≤ now - p.2.lastReceived) :
    (sweepRow now p).2.summary = "" := by
  unfold sweepRow
  rw [if_pos ⟨hs, hl⟩]

/-- A row with activity within the threshold is never cleared. -/
theorem sweepRow_keeps_recent (now : Int) (p : String × Row)
    (hl : now - p.2.lastReceived < 3600) :
    (sweepRow now p).2.summary = p.2.summary := by
  unfold sweepRow
  rw [if_neg]
  intro hc
  exact absurd hc.2 (by omega)

/-- An already-empty summary is left as it is. -/
theorem sweepRow_keeps_empty (now : Int) (p : String × Row)
    (hs : p.2.summary = "") :
    (sweepRow now p).2.summary = p.2.summary := by
  unfold sweepRow
  rw [if_neg]
  intro hc
  exact hc.1 hs

/-- C5: one sweep pass sends no webhook, deletes no row (same length, same
key and `last_received` at every index), clears exactly the rows whose
summary is non-empty with `now - last_received ≥ 3600`, and leaves every
other summary unchanged (in particular any row with activity within the
threshold). -/
theorem C5_sweep (now : Int) (db : Db) (i : Nat) (h : i < db.length)
    (h' : i < ((flush_task now db).1).length) :
    (flush_task now db).2 = []
    ∧ ((flush_task now db).1).length = db.length
    ∧ (((flush_task now db).1).get ⟨i, h'⟩).1 = (db.get ⟨i, h⟩).1
    ∧ (((flush_task now db).1).get ⟨i, h'⟩).2.lastReceived =
        (db.get ⟨i, h⟩).2.lastReceived
    ∧ ((db.get ⟨i, h⟩).2.summary ≠ "" →
        3600 ≤ now - (db.get ⟨i, h⟩).2.lastReceived →
        (((flush_task now db).1).get ⟨i, h'⟩).2.summary = "")
    ∧ (now - (db.get ⟨i, h⟩).2.lastReceived < 3600 →
        (((flush_task now db).1).get ⟨i, h'⟩).2.summary =
          (db.get ⟨i, h⟩).2.summary)
    ∧ ((db.get ⟨i, h⟩).2.summary = "" →
        (((flush_task now db).1).get ⟨i, h'⟩).2.summary =
          (db.get ⟨i, h⟩).2.summary) := by
  have hget : ((flush_task now db).1).get ⟨i, h'⟩ =
      sweepRow now (db.get ⟨i, h⟩) := by
    simp [flush_task, List.getElem_map]
  refine ⟨rfl, by simp [flush_task], ?_, ?_, ?_, ?_, ?_⟩
  · rw [hget]
    exact sweepRow_key now _
  · rw [hget]
    exact sweepRow_last now _
  · intro hs hl
    rw [hget]
    exact sweepRow_clears now _ hs hl
  · intro hl
    rw [hget]
    exact sweepRow_keeps_recent now _ hl
  · intro hs
    rw [hget]
    exact sweepRow_keeps_empty now _ hs

/-- A two-row table: "s1" is exactly at the threshold (cleared), "s2" is one
second within it (kept). -/
def dbC5 : Db := [("s1", Row.mk "A" 0), ("s2", Row.mk "B" 1)]

/-- C5 witness: the boundary — at `now = 3600`, inactivity 3600 is cleared
and inactivity 3599 is kept. -/
theorem C5_witness :
    (flush_task 3600 dbC5).2 = []
    ∧ ((flush_task 3600 dbC5).1).length = dbC5.length
    ∧ (((flush_task 3600 dbC5).1).get ⟨0, by decide⟩).2.summary = ""
    ∧ (((flush_task 3600 dbC5).1).get ⟨1, by decide⟩).2.summary =
        (dbC5.get ⟨1, by decide⟩).2.summary := by
  have h0 := C5_sweep 3600 dbC5 0 (by decide) (by decide)
  have h1 := C5_sweep 3600 dbC5 1 (by decide) (by decide)
  exact ⟨h0.1, h0.2.1, h0.2.2.2.2.1 (by decide) (by decide),
    h1.2.2.2.2.2.1 (by decide)⟩

end EttSummary

namespace EttSummary

/-! Claims C6 and C7: the client's accumulate/upload loop. -/

/-- Invariant of the uploader loop, by induction over the incoming samples:
every emitted chunk gets exactly one transmission attempt; its file is
removed exactly when the attempt was not a transport error; the loop's error
flag is set exactly when some event was a transport error; and a transport
error can only be the last event (everything before it was delivered or a
logged HTTP failure). -/
theorem batchGo_events {α : Type} (C : Nat) (oc : Nat → SendOutcome)
    (samples : List α) : ∀ (buf : List α) (idx : Nat),
    (∀ e ∈ (batchGo C oc samples buf idx).1,
      e.attempts = 1 ∧
        (e.fileRemoved = true ↔ e.outcome ≠ SendOutcome.transportError))
    ∧ ((batchGo C oc samples buf idx).2 = true ↔
        ∃ e ∈ (batchGo C oc samples buf idx).1,
          e.outcome = SendOutcome.transportError)
    ∧ ((∀ e ∈ (batchGo C oc samples buf idx).1,
          e.outcome ≠ SendOutcome.transportError)
       ∨ ∃ l x, (batchGo C oc samples buf idx).1 = l ++ [x]
          ∧ x.outcome = SendOutcome.transportError
          ∧ ∀ e ∈ l, e.outcome ≠ SendOutcome.transportError) := by
  induction samples with
  | nil =>
    intro buf idx
    simp [batchGo]
  | cons s rest ih =>
    intro buf idx
    by_cases hC : C ≤ (buf ++ [s]).length
    · have hC2 : C ≤ buf.length + 1 := by simpa using hC
      cases ho : oc idx with
      | transportError =>
        have hres : batchGo C oc (s :: rest) buf idx =
            ([UploadEvent.mk (buf ++ [s]) 1 false SendOutcome.transportError],
              true) := by
          simp [batchGo, hC2, ho, send_wav]
        rw [hres]
        refine ⟨?_, ?_, ?_⟩
        · intro e he
          simp at he
          subst he
          simp
        · simp
        · right
          exact ⟨[], UploadEvent.mk (buf ++ [s]) 1 false
            SendOutcome.transportError, by simp, rfl, by simp⟩
      | success =>
        have hres : batchGo C oc (s :: rest) buf idx =
            (UploadEvent.mk (buf ++ [s]) 1 true SendOutcome.success ::
              (batchGo C oc rest [] (idx + 1)).1,
              (batchGo C oc rest [] (idx + 1)).2) := by
          simp [batchGo, hC2, ho, send_wav]
        rw [hres]
        obtain ⟨ih1, ih2, ih3⟩ := ih [] (idx + 1)
        refine ⟨?_, ?_, ?_⟩
        · intro e he
          rcases List.mem_cons.mp he with h | h
          · subst h; simp
          · exact ih1 e h
        · simp only [List.mem_cons]
          constructor
          · intro hab
            obtain ⟨e, he, hout⟩ := ih2.mp hab
            exact ⟨e, Or.inr he, hout⟩
          · rintro ⟨e, he | he, hout⟩
            · subst he; simp at hout
            · exact ih2.mpr ⟨e, he, hout⟩
        · rcases ih3 with hall | ⟨l, x, hsplit, hx, hl⟩
          · left
            intro e he
            rcases List.mem_cons.mp he with h | h
            · subst h; simp
            · exact hall e h
          · right
            refine ⟨UploadEvent.mk (buf ++ [s]) 1 true SendOutcome.success ::
              l, x, by rw [hsplit]; rfl, hx, ?_⟩
            intro e he
            rcases List.mem_cons.mp he with h | h
            · subst h; simp
            · exact hl e h
      | httpFailure =>
        have hres : batchGo C oc (s :: rest) buf idx =
            (UploadEvent.mk (buf ++ [s]) 1 true SendOutcome.httpFailure ::
              (batchGo C oc rest [] (idx + 1)).1,
              (batchGo C oc rest [] (idx + 1)).2) := by
          simp [batchGo, hC2, ho, send_wav]
        rw [hres]
        obtain ⟨ih1, ih2, ih3⟩ := ih [] (idx + 1)
        refine ⟨?_, ?_, ?_⟩
        · intro e he
          rcases List.mem_cons.mp he with h | h
          · subst h; simp
          · exact ih1 e h
        · simp only [List.mem_cons]
          constructor
          · intro hab
            obtain ⟨e, he, hout⟩ := ih2.mp hab
            exact ⟨e, Or.inr he, hout⟩
          · rintro ⟨e, he | he, hout⟩
            · subst he; simp at hout
            · exact ih2.mpr ⟨e, he, hout⟩
        · rcases ih3 with hall | ⟨l, x, hsplit, hx, hl⟩
          · left
            intro e he
            rcases List.mem_cons.mp he with h | h
            · subst h; simp
            · exact hall e h
          · right
            refine ⟨UploadEvent.mk (buf ++ [s]) 1 true
              SendOutcome.httpFailure :: l, x, by rw [hsplit]; rfl, hx, ?_⟩
            intro e he
            rcases List.mem_cons.mp he with h | h
            · subst h; simp
            · exact hl e h
    · have hC2 : ¬ C ≤ buf.length + 1 := by simpa using hC
      have hres : batchGo C oc (s :: rest) buf idx =
          batchGo C oc rest (buf ++ [s]) idx := by
        simp [batchGo, hC2]
      rw [hres]
      exact ih (buf ++ [s]) idx

/-- C6 (amended): every emitted chunk gets exactly one transmission attempt,
and an HTTP-failure outcome is only logged — its file is removed and the
loop continues to later chunks.  But a transport error does not behave as the
claim states: `send_wav` propagates it with `?` before the `remove_file`
line, so the local file of that chunk is NOT removed, and the error
propagates out of `batch_and_send`'s loop, so no further chunk is produced
or uploaded (a transport-error event can only be the last one, and it sets
the loop's error result). -/
theorem C6_amended {α : Type} (C : Nat) (oc : Nat → SendOutcome)
    (samples : List α) :
    (∀ e ∈ (batch_and_send C oc samples).1,
      e.attempts = 1 ∧
        (e.fileRemoved = true ↔ e.outcome ≠ SendOutcome.transportError))
    ∧ ((batch_and_send C oc samples).2 = true ↔
        ∃ e ∈ (batch_and_send C oc samples).1,
          e.outcome = SendOutcome.transportError)
    ∧ ((∀ e ∈ (batch_and_send C oc samples).1,
          e.outcome ≠ SendOutcome.transportError)
       ∨ ∃ l x, (batch_and_send C oc samples).1 = l ++ [x]
          ∧ x.outcome = SendOutcome.transportError
          ∧ ∀ e ∈ l, e.outcome ≠ SendOutcome.transportError) :=
  batchGo_events C oc samples [] 0

/-- C6 counterexample: with threshold 2 and four samples, a transport error
on the first chunk leaves exactly one event — its file NOT removed — and
aborts the loop, so the second chunk is never attempted (the claim requires
the file removed regardless of outcome and subsequent chunks to continue). -/
theorem C6_counterexample :
    (batch_and_send 2 (fun _ => SendOutcome.transportError)
      ([0, 1, 2, 3] : List Nat)).1 =
      [UploadEvent.mk [0, 1] 1 false SendOutcome.transportError]
    ∧ (batch_and_send 2 (fun _ => SendOutcome.transportError)
      ([0, 1, 2, 3] : List Nat)).2 = true := by decide

/-- C6 witness: the amended theorem applied to a logged HTTP failure. -/
theorem C6_witness :
    (UploadEvent.mk ([0, 1] : List Nat) 1 true
      SendOutcome.httpFailure).attempts = 1
    ∧ ((UploadEvent.mk ([0, 1] : List Nat) 1 true
        SendOutcome.httpFailure).fileRemoved = true ↔
      (UploadEvent.mk ([0, 1] : List Nat) 1 true
        SendOutcome.httpFailure).outcome ≠ SendOutcome.transportError) :=
  (C6_amended 2 (fun _ => SendOutcome.httpFailure) [0, 1]).1
    (UploadEvent.mk [0, 1] 1 true SendOutcome.httpFailure) (by decide)

/-- The accumulator's counting invariant, generalized over the in-progress
buffer: with all sends succeeding, the number of chunks emitted from a
buffer of `b < C` samples plus a stream of `n` samples is `(b + n) / C`,
every chunk holds exactly `C` samples, and the chunks concatenate to the
first `C * ((b + n) / C)` samples in stream order. -/
theorem batchGo_success_count {α : Type} (C : Nat) (hC : 0 < C)
    (samples : List α) : ∀ (buf : List α) (idx : Nat), buf.length < C →
    ((batchGo C (fun _ => SendOutcome.success) samples buf idx).1).length
      = (buf.length + samples.length) / C
    ∧ (∀ e ∈ (batchGo C (fun _ => SendOutcome.success) samples buf idx).1,
        e.chunk.length = C)
    ∧ (((batchGo C (fun _ => SendOutcome.success) samples buf idx).1).map
        (fun e => e.chunk)).flatten =
      (buf ++ samples).take (C * ((buf.length + samples.length) / C)) := by
  induction samples with
  | nil =>
    intro buf idx hbuf
    simp [batchGo, Nat.div_eq_of_lt hbuf]
  | cons s rest ih =>
    intro buf idx hbuf
    by_cases hC2 : C ≤ buf.length + 1
    · have hlen : buf.length + 1 = C := by omega
      have hres : batchGo C (fun _ => SendOutcome.success) (s :: rest) buf
          idx =
          (UploadEvent.mk (buf ++ [s]) 1 true SendOutcome.success ::
            (batchGo C (fun _ => SendOutcome.success) rest [] (idx + 1)).1,
            (batchGo C (fun _ => SendOutcome.success) rest [] (idx + 1)).2)
          := by
        simp [batchGo, hC2, send_wav]
      obtain ⟨ih1, ih2, ih3⟩ := ih [] (idx + 1) (by simpa using hC)
      simp only [List.length_nil, List.nil_append, Nat.zero_add] at ih1 ih3
      have hdiv : buf.length + (s :: rest).length = rest.length + C := by
        simp only [List.length_cons]
        omega
      rw [hres]
      have hdiv2 : buf.length + (rest.length + 1) = rest.length + C := by
        omega
      refine ⟨?_, ?_, ?_⟩
      · simp only [List.length_cons, ih1]
        rw [hdiv2, Nat.add_div_right rest.length hC]
      · intro e he
        rcases List.mem_cons.mp he with h | h
        · subst h
          simp [hlen]
        · exact ih2 e h
      · simp only [List.map_cons, List.flatten_cons]
        rw [ih3, hdiv, Nat.add_div_right rest.length hC,
          List.append_cons buf s rest]
        have hmul : C * (rest.length / C + 1) =
            (buf ++ [s]).length + C * (rest.length / C) := by
          simp only [List.length_append, List.length_cons, List.length_nil]
          have : buf.length + (0 + 1) = C := by omega
          rw [this]
          ring
        rw [hmul, List.take_append_eq_append_take]
        congr 1
        · exact (List.take_of_length_le (by omega)).symm
        · congr 1
          omega
    · have hbuf2 : (buf ++ [s]).length < C := by
        simp only [List.length_append, List.length_cons, List.length_nil]
        omega
      have hres : batchGo C (fun _ => SendOutcome.success) (s :: rest) buf
          idx = batchGo C (fun _ => SendOutcome.success) rest (buf ++ [s])
            idx := by
        simp [batchGo, hC2]
      obtain ⟨ih1, ih2, ih3⟩ := ih (buf ++ [s]) idx hbuf2
      rw [hres, List.append_cons buf s rest]
      have harith : buf.length + (s :: rest).length =
          (buf ++ [s]).length + rest.length := by
        simp only [List.length_cons, List.length_append, List.length_nil]
        omega
      rw [harith]
      exact ⟨ih1, ih2, ih3⟩

/-- C7: on a continuous stream of `total` samples with threshold `C > 0`
(and deliveries succeeding, so the loop never aborts), the accumulator emits
exactly `total / C` chunks, each of exactly `C` samples, and the emitted
chunks are the stream's first `C * (total / C)` samples in order — no chunk
shorter than `C` is ever emitted. -/
theorem C7_accumulator {α : Type} (C : Nat) (hC : 0 < C) (samples : List α) :
    ((batch_and_send C (fun _ => SendOutcome.success) samples).1).length
      = samples.length / C
    ∧ (∀ e ∈ (batch_and_send C (fun _ => SendOutcome.success) samples).1,
        e.chunk.length = C)
    ∧ (((batch_and_send C (fun _ => SendOutcome.success) samples).1).map
        (fun e => e.chunk)).flatten = samples.take (C * (samples.length / C))
    := by
  have h := batchGo_success_count C hC samples [] 0 (by simpa using hC)
  simpa [batch_and_send] using h

/-- C7 witness: threshold 2 over five samples gives two chunks covering the
first four samples. -/
theorem C7_witness :
    ((batch_and_send 2 (fun _ => SendOutcome.success)
      ([10, 11, 12, 13, 14] : List Nat)).1).length = 2
    ∧ (((batch_and_send 2 (fun _ => SendOutcome.success)
        ([10, 11, 12, 13, 14] : List Nat)).1).map
        (fun e => e.chunk)).flatten = [10, 11, 12, 13] := by
  have h := C7_accumulator 2 (by decide) ([10, 11, 12, 13, 14] : List Nat)
  exact ⟨h.1.trans (by decide), h.2.2.trans (by decide)⟩

/-! Claim C8: the per-SourceKey merge race. -/

/-- One scheduler step either leaves the shared summary alone or replaces it
with the complete output of one summarizer call on a prompt built by one of
the two requests. -/
theorem mergeStep_summary (env : MergeEnv) (i : Bool) (st : MergeSt) :
    (mergeStep env i st).summary = st.summary
    ∨ (∃ v, (mergeStep env i st).summary =
        env.summarizer (buildPrompt env.sys_cfg v env.transcript0))
    ∨ (∃ v, (mergeStep env i st).summary =
        env.summarizer (buildPrompt env.sys_cfg v env.transcript1)) := by
  by_cases hi : i = false
  · rcases h : st.task0.readVal with _ | v
    · left
      simp [mergeStep, hi, stepTask, h]
      cases hw : st.task0.written <;> simp
    · cases hw : st.task0.written
      · right
        left
        exact ⟨v, by simp [mergeStep, hi, stepTask, h, hw]⟩
      · left
        simp [mergeStep, hi, stepTask, h, hw]
  · rcases h : st.task1.readVal with _ | v
    · left
      simp [mergeStep, hi, stepTask, h]
      cases hw : st.task1.written <;> simp
    · cases hw : st.task1.written
      · right
        right
        exact ⟨v, by simp [mergeStep, hi, stepTask, h, hw]⟩
      · left
        simp [mergeStep, hi, stepTask, h, hw]

/-- C8 (amended): merges for the same SourceKey are NOT serialized (the
engine lock is dropped before the summary read — see the counterexample);
what does hold is write atomicity: under every schedule of two concurrent
ingestion calls, the final running_summary is either the prior value or the
complete output of exactly one Summarizer call on a prompt built by one of
the two requests (from the summary value that request read, which may be
stale) — never an interleaving of two outputs. -/
theorem C8_amended (env : MergeEnv) (sched : List Bool) (st : MergeSt) :
    (mergeRun env sched st).summary = st.summary
    ∨ (∃ v, (mergeRun env sched st).summary =
        env.summarizer (buildPrompt env.sys_cfg v env.transcript0))
    ∨ (∃ v, (mergeRun env sched st).summary =
        env.summarizer (buildPrompt env.sys_cfg v env.transcript1)) := by
  induction sched generalizing st with
  | nil => left; rfl
  | cons i rest ih =>
    have hrun : mergeRun env (i :: rest) st =
        mergeRun env rest (mergeStep env i st) := rfl
    rw [hrun]
    rcases ih (mergeStep env i st) with h | h | h
    · rw [h]
      exact mergeStep_summary env i st
    · right; left; exact h
    · right; right; exact h

/-- The race fixture: both transcripts against the system "s1", a
deterministic summarizer stub. -/
def raceEnv : MergeEnv :=
  MergeEnv.mk sysA (fun p => "S[" ++ p ++ "]") "a" "b"

/-- Initial state: empty summary, neither request has read yet. -/
def raceInit : MergeSt :=
  MergeSt.mk "" (MergeTask.mk none false) (MergeTask.mk none false)

/-- C8 counterexample: after the schedule read₀, read₁ both merges are in
flight at the same instant, refuting per-key mutual exclusion; and the full
racy schedule ends with a summary that differs from both outcomes a
serialized execution of the two merges could produce (either order), so the
two calls did not serialize. -/
theorem C8_counterexample :
    (inFlight (mergeRun raceEnv [false, true] raceInit).task0 = true
     ∧ inFlight (mergeRun raceEnv [false, true] raceInit).task1 = true)
    ∧ (mergeRun raceEnv [false, true, false, true] raceInit).summary ≠
        raceEnv.summarizer (buildPrompt raceEnv.sys_cfg
          (raceEnv.summarizer (buildPrompt raceEnv.sys_cfg ""
            raceEnv.transcript0)) raceEnv.transcript1)
    ∧ (mergeRun raceEnv [false, true, false, true] raceInit).summary ≠
        raceEnv.summarizer (buildPrompt raceEnv.sys_cfg
          (raceEnv.summarizer (buildPrompt raceEnv.sys_cfg ""
            raceEnv.transcript1)) raceEnv.transcript0) := by decide

end EttSummary
